import Mathlib

/-! The events service (`src/events/service.go`)

A shallow embedding of the `service` type of package `events`, with its two methods
`PostEvents` and `Health`.

* The Kafka producer (`sarama.SyncProducer`) is an interface value held by the service. It is
  modelled as a transition function on an explicit producer state `σ`; the field is an `Option`
  because the Go field can hold the nil interface (which `Health` tests for).
* `json.Marshal` is library code; it is a parameter `jsonMarshal` of `PostEvents`.
* `time.Now().String()` is read twice by `Health`; the two readings are parameters.
* A method call on a nil interface value is a run-time panic in Go; a run that panics has
  `result = .error Panic.nilDereference`.
* Every run reports the `SendMessage` calls that the producer received and the records handed
  to the logger, in the order in which they happened.
-/

namespace events

/-! ## Data model -/

/-- Go `error` values met in `service.go`, told apart by their origin: `errors.New(text)`, an
error returned by `producer.SendMessage`, or an error returned by `json.Marshal`. The Go value
`nil` of type `error` is `none : Option GoError`. -/
inductive GoError where
  | errorsNew (text : String)
  | sendError (text : String)
  | marshalError (text : String)
deriving DecidableEq, Repr

/-- A Go `[]byte`. -/
abbrev Bytes := List UInt8

/-- The Go struct `EventsReceived`; `Length` is a Go `int`. -/
structure EventsReceived where
  Success : Bool
  Length : Int
deriving DecidableEq, Repr

/-- The Go struct `Event`. The field `Type` is spelled `Typ` (`Type` is reserved); `δ` is the
type of the values that sit in the `Detail interface` field. -/
structure Event (δ : Type) where
  Time : String
  Typ : String
  Detail : δ
deriving DecidableEq, Repr

/-- The Go struct `EventRecord`: an embedded `Event` plus `Source` and `Track`. -/
structure EventRecord (δ : Type) extends Event δ where
  Source : String
  Track : String
deriving DecidableEq, Repr

/-- The Go struct `Health`. -/
structure Health where
  Service : String
  Status : String
  Time : String
deriving DecidableEq, Repr

/-- The fields of `sarama.ProducerMessage` that `PostEvents` sets; all others keep their zero
value. -/
structure ProducerMessage where
  Topic : String
  Value : Bytes
deriving DecidableEq, Repr

/-- The method of `sarama.SyncProducer` that the service calls:
`SendMessage(msg) (partition int32, offset int64, err error)`, acting on the producer state. -/
structure SyncProducer (σ : Type) where
  SendMessage : σ → ProducerMessage → (Int × Int × Option GoError) × σ

/-- The `context.Context` stored in the service; `done` tells whether it has been cancelled. -/
structure Context where
  done : Bool
deriving DecidableEq, Repr

/-- The Go struct `service`. The `logger` field is a sink: the records it receives are the
`logs` of a run. -/
structure service (σ : Type) where
  ctx : Context
  producer : Option (SyncProducer σ)
  topic : String

/-- Constructor `NewEventsService`. -/
def NewEventsService {σ : Type} (ctx : Context) (producer : Option (SyncProducer σ))
    (topic : String) : service σ :=
  { ctx := ctx, producer := producer, topic := topic }

/-! ## Runs -/

/-- Run-time panics. -/
inductive Panic where
  | nilDereference
deriving DecidableEq, Repr

/-- One `SendMessage` call as seen by the producer: the message and the error it answered. -/
structure SendCall where
  msg : ProducerMessage
  err : Option GoError
deriving DecidableEq, Repr

/-- A value passed to `logger.Log`. -/
inductive LogValue where
  | str (s : String)
  | int (n : Int)
  | err (e : Option GoError)
deriving DecidableEq, Repr

/-- The outcome of running a method: the returned value (or the panic), the producer state
afterwards, the `SendMessage` calls made and the log records written, oldest first. -/
structure Run (σ α : Type) where
  result : Except Panic α
  bus : σ
  calls : List SendCall
  logs : List (List LogValue)

/-- Number of calls of a run that answered a non-nil error. -/
def failedSends {σ α : Type} (r : Run σ α) : Nat :=
  r.calls.countP (fun c => c.err.isSome)

/-! ## `PostEvents` -/

section PostEvents

variable {σ δ : Type}

/-- The body of the first loop of `PostEvents` (lines 93-110) for one event: build the
`EventRecord`, marshal it, and append a message when marshalling succeeded. -/
def appendMessage (jsonMarshal : EventRecord δ → Except GoError Bytes) (topic source track : String)
    (messages : List ProducerMessage) (evt : Event δ) : List ProducerMessage :=
  let msg : EventRecord δ :=
    { Time := evt.Time, Typ := evt.Typ, Detail := evt.Detail, Source := source, Track := track }
  match jsonMarshal msg with
  | .ok data => messages ++ [{ Topic := topic, Value := data }]
  | .error _ => messages

/-- The first loop of `PostEvents`: `for _, evt := range events`, starting from the nil
slice. -/
def buildMessages (jsonMarshal : EventRecord δ → Except GoError Bytes) (topic source track : String)
    (events : List (Event δ)) : List ProducerMessage :=
  events.foldl (appendMessage jsonMarshal topic source track) []

/-- The second loop of `PostEvents` (lines 114-121): `for _, msg := range messages`, threading
the variables `err` and `successCount`, the producer state and the two traces. -/
def sendLoop (producer : Option (SyncProducer σ)) :
    List ProducerMessage → Option GoError → Int → σ → List SendCall → List (List LogValue) →
      Run σ (Option GoError × Int)
  | [], err, successCount, bus, calls, logs =>
    { result := .ok (err, successCount), bus := bus, calls := calls, logs := logs }
  | msg :: rest, _, successCount, bus, calls, logs =>
    match producer with
    | none =>
      { result := .error Panic.nilDereference, bus := bus, calls := calls, logs := logs }
    | some p =>
      match p.SendMessage bus msg with
      | ((_, _, err), bus1) =>
        if err.isSome then
          sendLoop producer rest err successCount bus1 (calls ++ [{ msg := msg, err := err }])
            (logs ++ [[.str "error", .str "failed to send message", .str "err", .err err]])
        else
          sendLoop producer rest err (successCount + 1) bus1
            (calls ++ [{ msg := msg, err := err }]) logs

/-- The calls that producer `p` receives, with its answers, when the messages are sent to it
one after the other from state `bus`. -/
def sendTrace (p : SyncProducer σ) : List ProducerMessage → σ → List SendCall
  | [], _ => []
  | msg :: rest, bus =>
    { msg := msg, err := (p.SendMessage bus msg).1.2.2 } :: sendTrace p rest (p.SendMessage bus msg).2

/-- The message that goes out for one event: the marshalled `EventRecord` made of the
request's `source` and `track` and the event's own fields, addressed to `topic`; none when the
record does not marshal. -/
def outgoingMessage (jsonMarshal : EventRecord δ → Except GoError Bytes)
    (topic source track : String) (evt : Event δ) : Option ProducerMessage :=
  match jsonMarshal
    { Time := evt.Time, Typ := evt.Typ, Detail := evt.Detail, Source := source, Track := track } with
  | .ok data => some { Topic := topic, Value := data }
  | .error _ => none

/-- The three batch-level outcomes of `PostEvents` for `okCount` accepted messages out of
`submitted`, on a batch of `numEvents` events. -/
def classify (numEvents : Int) (okCount submitted : Nat) : EventsReceived × Option GoError :=
  if okCount = submitted then
    ({ Success := true, Length := numEvents }, none)
  else if 0 < okCount then
    ({ Success := true, Length := numEvents },
      some (GoError.errorsNew "some messages failed to send"))
  else
    ({ Success := false, Length := numEvents },
      some (GoError.errorsNew "all messages failed to send"))

/-- The method `(s *service) PostEvents(source, track, events)`. -/
def service.PostEvents (jsonMarshal : EventRecord δ → Except GoError Bytes) (s : service σ)
    (source track : String) (events : List (Event δ)) (bus : σ) :
    Run σ (EventsReceived × Option GoError) :=
  let numEvents : Int := events.length
  let logs : List (List LogValue) :=
    [[.str "source", .str source, .str "track", .str track, .str "length", .int numEvents]]
  let err : Option GoError := none
  let success := false
  if numEvents = 0 then
    { result := .ok ({ Success := success, Length := numEvents },
        some (GoError.errorsNew "no events received")),
      bus := bus, calls := [], logs := logs }
  else
    let messages := buildMessages jsonMarshal s.topic source track events
    let sent := sendLoop s.producer messages err 0 bus [] logs
    match sent.result with
    | .error p => { result := .error p, bus := sent.bus, calls := sent.calls, logs := sent.logs }
    | .ok (_, successCount) =>
      let outcome : Bool × Option GoError :=
        if successCount = messages.length then
          (true, none)
        else if successCount > 0 then
          (true, some (GoError.errorsNew "some messages failed to send"))
        else
          (success, some (GoError.errorsNew "all messages failed to send"))
      { result := .ok ({ Success := outcome.1, Length := numEvents }, outcome.2),
        bus := sent.bus, calls := sent.calls, logs := sent.logs }

end PostEvents

/-! ## `Health` -/

/-- The method `(s *service) Health()`; `now1` and `now2` are the values of the two
`time.Now().String()` expressions (lines 141 and 148). -/
def service.Health {σ : Type} (s : service σ) (now1 now2 : String) : List events.Health :=
  let health : List events.Health := []
  let app : events.Health := { Service := "events", Status := "OK", Time := now1 }
  let kafkaStatus := if s.producer.isNone then "ERROR" else "OK"
  let kafka : events.Health :=
    { Service := "kafka:events-stream", Status := kafkaStatus, Time := now2 }
  let health := health ++ [app]
  let health := health ++ [kafka]
  health

/-! ## Sample inputs -/

/-- Values for the `Detail` field in the sample runs: a JSON object given by its text, or a Go
channel, which `json.Marshal` rejects. -/
inductive SampleDetail where
  | object (text : String)
  | channel
deriving DecidableEq, Repr

/-- A stand-in for `json.Marshal` on the sample details: it fails on a channel and otherwise
yields the lengths of the five fields. -/
def sampleMarshal (r : EventRecord SampleDetail) : Except GoError Bytes :=
  match r.Detail with
  | .channel => .error (.marshalError "json: unsupported type: chan int")
  | .object text =>
    .ok [r.Time.length.toUInt8, r.Typ.length.toUInt8, text.length.toUInt8,
      r.Source.length.toUInt8, r.Track.length.toUInt8]

/-- A producer that follows a script: the state is the list of answers still to give, `true`
for an accepted message; with the script used up every message is accepted. -/
def scriptedProducer : SyncProducer (List Bool) where
  SendMessage script _ :=
    match script with
    | [] => ((0, 0, none), [])
    | true :: rest => ((0, 0, none), rest)
    | false :: rest => ((0, 0, some (.sendError "kafka: broker not available")), rest)

/-- A service wired to the scripted producer. -/
def scriptedService : service (List Bool) :=
  NewEventsService { done := false } (some scriptedProducer) "mushop-events"

/-- A service that holds no producer. -/
def unwiredService : service (List Bool) :=
  NewEventsService { done := false } none "mushop-events"

/-- The batch of the two events `login` and `click`. -/
def loginClick : List (Event SampleDetail) :=
  [{ Time := "t1", Typ := "login", Detail := .object "" },
   { Time := "t2", Typ := "click", Detail := .object "" }]

/-- A batch whose first event carries a channel, which does not marshal, followed by the
`login` event. -/
def channelThenLogin : List (Event SampleDetail) :=
  [{ Time := "t0", Typ := "trace", Detail := .channel },
   { Time := "t1", Typ := "login", Detail := .object "" }]

/-- A batch of one event that does not marshal. -/
def channelOnly : List (Event SampleDetail) :=
  [{ Time := "t0", Typ := "trace", Detail := .channel }]

/-! ## Theorems -/

/-- A batch of two events, neither of which marshals. -/
def channelTwice : List (Event SampleDetail) :=
  [{ Time := "t0", Typ := "trace", Detail := .channel },
   { Time := "t3", Typ := "probe", Detail := .channel }]

/-- A service wired to the scripted producer whose context has already been cancelled. -/
def cancelledService : service (List Bool) :=
  NewEventsService { done := true } (some scriptedProducer) "mushop-events"

section Lemmas

variable {σ δ : Type}

theorem sendTrace_map_msg (p : SyncProducer σ) (messages : List ProducerMessage) (bus : σ) :
    (sendTrace p messages bus).map (fun c => c.msg) = messages := by
  induction messages generalizing bus with
  | nil => rfl
  | cons msg rest ih => simp [sendTrace, ih]

theorem sendTrace_length (p : SyncProducer σ) (messages : List ProducerMessage) (bus : σ) :
    (sendTrace p messages bus).length = messages.length := by
  have h := congrArg List.length (sendTrace_map_msg p messages bus)
  simpa using h

theorem sendLoop_some (p : SyncProducer σ) (messages : List ProducerMessage)
    (err : Option GoError) (n : Int) (bus : σ) (calls : List SendCall)
    (logs : List (List LogValue)) :
    (sendLoop (some p) messages err n bus calls logs).calls = calls ++ sendTrace p messages bus
      ∧ ∃ e, (sendLoop (some p) messages err n bus calls logs).result
          = .ok (e, n + ((sendTrace p messages bus).countP (fun c => c.err.isNone) : Nat)) := by
  induction messages generalizing err n bus calls logs with
  | nil => simp [sendLoop, sendTrace]
  | cons msg rest ih =>
    rcases hsend : p.SendMessage bus msg with ⟨⟨partition, offset, e⟩, bus1⟩
    cases e with
    | none =>
      have h := ih none (n + 1) bus1 (calls ++ [{ msg := msg, err := none }]) logs
      obtain ⟨h1, e2, h2⟩ := h
      simp only [sendLoop, sendTrace, hsend]
      simp [h1, h2]
      omega
    | some e1 =>
      have h := ih (some e1) n bus1 (calls ++ [{ msg := msg, err := some e1 }])
        (logs ++ [[.str "error", .str "failed to send message", .str "err", .err (some e1)]])
      obtain ⟨h1, e2, h2⟩ := h
      simp only [sendLoop, sendTrace, hsend]
      simp [h1, h2]

theorem sendLoop_none (messages : List ProducerMessage)
    (err : Option GoError) (n : Int) (bus : σ) (calls : List SendCall)
    (logs : List (List LogValue)) :
    (sendLoop none messages err n bus calls logs).calls = calls
      ∧ (messages ≠ [] →
          (sendLoop none messages err n bus calls logs).result = .error Panic.nilDereference) := by
  cases messages with
  | nil => simp [sendLoop]
  | cons msg rest => simp [sendLoop]

theorem foldl_appendMessage (jsonMarshal : EventRecord δ → Except GoError Bytes)
    (topic source track : String) (events : List (Event δ)) (acc : List ProducerMessage) :
    events.foldl (appendMessage jsonMarshal topic source track) acc
      = acc ++ events.filterMap (outgoingMessage jsonMarshal topic source track) := by
  induction events generalizing acc with
  | nil => simp
  | cons evt rest ih =>
    rw [List.foldl_cons, ih]
    unfold appendMessage outgoingMessage
    cases h : jsonMarshal
      { Time := evt.Time, Typ := evt.Typ, Detail := evt.Detail, Source := source, Track := track }
      <;> simp [List.filterMap_cons, outgoingMessage, h]

theorem buildMessages_eq_filterMap (jsonMarshal : EventRecord δ → Except GoError Bytes)
    (topic source track : String) (events : List (Event δ)) :
    buildMessages jsonMarshal topic source track events
      = events.filterMap (outgoingMessage jsonMarshal topic source track) := by
  simp [buildMessages, foldl_appendMessage]

theorem PostEvents_with_producer (jsonMarshal : EventRecord δ → Except GoError Bytes)
    (s : service σ) (p : SyncProducer σ) (hp : s.producer = some p)
    (source track : String) (events : List (Event δ)) (hne : events ≠ []) (bus : σ) :
    (s.PostEvents jsonMarshal source track events bus).calls
        = sendTrace p (buildMessages jsonMarshal s.topic source track events) bus
      ∧ (s.PostEvents jsonMarshal source track events bus).result
        = .ok (classify events.length
            ((sendTrace p (buildMessages jsonMarshal s.topic source track events) bus).countP
              (fun c => c.err.isNone))
            (sendTrace p (buildMessages jsonMarshal s.topic source track events) bus).length) := by
  have hlen : ¬ ((events.length : Int) = 0) := by
    cases events with
    | nil => exact absurd rfl hne
    | cons e es => simp; omega
  obtain ⟨h1, e, h2⟩ := sendLoop_some p (buildMessages jsonMarshal s.topic source track events)
    none 0 bus []
    [[.str "source", .str source, .str "track", .str track, .str "length",
      .int (events.length : Int)]]
  simp only [service.PostEvents, hp, if_neg hlen, h2, h1, List.nil_append]
  refine ⟨trivial, ?_⟩
  simp only [classify, sendTrace_length, zero_add, Nat.cast_inj, Nat.cast_pos, gt_iff_lt]
  split_ifs <;> rfl

theorem PostEvents_without_producer (jsonMarshal : EventRecord δ → Except GoError Bytes)
    (s : service σ) (hp : s.producer = none)
    (source track : String) (events : List (Event δ)) (bus : σ) :
    (s.PostEvents jsonMarshal source track events bus).calls = [] := by
  by_cases hlen : (events.length : Int) = 0
  · simp [service.PostEvents, hlen]
  · have h := (sendLoop_none (buildMessages jsonMarshal s.topic source track events)
      none 0 bus []
      [[.str "source", .str source, .str "track", .str track, .str "length",
        .int (events.length : Int)]]).1
    simp only [service.PostEvents, hp, if_neg hlen]
    split <;> simpa using h

theorem countP_isNone_add_isSome (calls : List SendCall) :
    calls.countP (fun c => c.err.isNone) + calls.countP (fun c => c.err.isSome) = calls.length := by
  induction calls with
  | nil => rfl
  | cons c rest ih =>
    cases h : c.err <;> simp [List.countP_cons, h] <;> omega

theorem countP_isSome_eq_length_iff (calls : List SendCall) :
    calls.countP (fun c => c.err.isSome) = calls.length ↔ ∀ c ∈ calls, c.err ≠ none := by
  rw [List.countP_eq_length]
  constructor
  · intro h c hc hnone
    have := h c hc
    simp [hnone] at this
  · intro h c hc
    cases hce : c.err with
    | none => exact absurd hce (h c hc)
    | some e => rfl

theorem countP_isNone_eq_length_iff (calls : List SendCall) :
    calls.countP (fun c => c.err.isNone) = calls.length ↔ ∀ c ∈ calls, c.err = none := by
  rw [List.countP_eq_length]
  constructor
  · intro h c hc
    have := h c hc
    cases hce : c.err with
    | none => rfl
    | some e => simp [hce] at this
  · intro h c hc
    simp [h c hc]

theorem filterMap_ne_nil_of_mem {α β : Type} (f : α → Option β) (l : List α) (a : α) (b : β)
    (ha : a ∈ l) (hb : f a = some b) : l.filterMap f ≠ [] := by
  intro h
  have hmem : b ∈ l.filterMap f := List.mem_filterMap.2 ⟨a, ha, hb⟩
  rw [h] at hmem
  exact absurd hmem (List.not_mem_nil b)

theorem forall₂_filterMap_filter {α β : Type} (f : α → Option β) (l : List α) :
    List.Forall₂ (fun b a => f a = some b) (l.filterMap f) (l.filter (fun a => (f a).isSome)) := by
  induction l with
  | nil => exact List.Forall₂.nil
  | cons a rest ih =>
    cases h : f a with
    | none => simpa [List.filterMap_cons, List.filter_cons, h] using ih
    | some b =>
      simp only [List.filterMap_cons, List.filter_cons, h, Option.isSome_some, if_true]
      exact List.Forall₂.cons h ih

theorem classify_length (numEvents : Int) (okCount submitted : Nat) :
    (classify numEvents okCount submitted).1.Length = numEvents := by
  unfold classify
  split_ifs <;> rfl

theorem run_of_no_events (jsonMarshal : EventRecord δ → Except GoError Bytes)
    (s : service σ) (source track : String) (bus : σ) :
    s.PostEvents jsonMarshal source track [] bus
      = { result := .ok ({ Success := false, Length := 0 },
            some (GoError.errorsNew "no events received")),
          bus := bus, calls := [],
          logs := [[.str "source", .str source, .str "track", .str track, .str "length",
            .int 0]] } := by
  simp [service.PostEvents]

theorem calls_with_producer (jsonMarshal : EventRecord δ → Except GoError Bytes)
    (s : service σ) (p : SyncProducer σ) (hp : s.producer = some p)
    (source track : String) (events : List (Event δ)) (bus : σ) :
    (s.PostEvents jsonMarshal source track events bus).calls.map (fun c => c.msg)
      = events.filterMap (outgoingMessage jsonMarshal s.topic source track) := by
  by_cases hne : events = []
  · subst hne
    simp [run_of_no_events]
  · obtain ⟨h1, _⟩ := PostEvents_with_producer jsonMarshal s p hp source track events hne bus
    rw [h1, sendTrace_map_msg, buildMessages_eq_filterMap]

theorem classify_error (numEvents : Int) (okCount submitted : Nat) :
    (classify numEvents okCount submitted).2 = none
      ∨ (classify numEvents okCount submitted).2
          = some (GoError.errorsNew "some messages failed to send")
      ∨ (classify numEvents okCount submitted).2
          = some (GoError.errorsNew "all messages failed to send") := by
  unfold classify
  split_ifs
  · exact Or.inl rfl
  · exact Or.inr (Or.inl rfl)
  · exact Or.inr (Or.inr rfl)

theorem buildMessages_eq_nil (jsonMarshal : EventRecord δ → Except GoError Bytes)
    (topic source track : String) (events : List (Event δ))
    (hfail : ∀ evt ∈ events, ∃ e, jsonMarshal
      { Time := evt.Time, Typ := evt.Typ, Detail := evt.Detail, Source := source, Track := track }
        = .error e) :
    buildMessages jsonMarshal topic source track events = [] := by
  rw [buildMessages_eq_filterMap]
  induction events with
  | nil => rfl
  | cons evt rest ih =>
    obtain ⟨e, he⟩ := hfail evt (List.mem_cons_self evt rest)
    have hrest := ih (fun x hx => hfail x (List.mem_cons_of_mem evt hx))
    have hout : outgoingMessage jsonMarshal topic source track evt = none := by
      simp [outgoingMessage, he]
    simp [List.filterMap_cons, hout, hrest]

theorem run_of_no_messages (jsonMarshal : EventRecord δ → Except GoError Bytes)
    (s : service σ) (source track : String) (events : List (Event δ)) (bus : σ)
    (hne : events ≠ [])
    (hmsgs : buildMessages jsonMarshal s.topic source track events = []) :
    (s.PostEvents jsonMarshal source track events bus).calls = []
      ∧ (s.PostEvents jsonMarshal source track events bus).result
        = .ok ({ Success := true, Length := events.length }, none) := by
  have hlen : ¬ ((events.length : Int) = 0) := by
    cases events with
    | nil => exact absurd rfl hne
    | cons e es => simp; omega
  simp [service.PostEvents, hlen, hmsgs, sendLoop]

end Lemmas

/-- C1: `PostEvents` with an empty event list returns `Success = false`, `Length = 0` and the
error "no events received", makes no `SendMessage` call and leaves the producer untouched, for
every service, source and track. -/
theorem PostEvents_empty {σ δ : Type} (jsonMarshal : EventRecord δ → Except GoError Bytes)
    (s : service σ) (source track : String) (bus : σ) :
    (s.PostEvents jsonMarshal source track [] bus).result
        = .ok ({ Success := false, Length := 0 }, some (GoError.errorsNew "no events received"))
      ∧ (s.PostEvents jsonMarshal source track [] bus).calls = []
      ∧ (s.PostEvents jsonMarshal source track [] bus).bus = bus := by
  simp [run_of_no_events]

/-- C2, as stated, fails: in a batch of N = 2 events whose first event does not marshal and
whose only send fails, exactly k = 1 send fails with 0 < k < N, yet `PostEvents` returns
`Success = false` with "all messages failed to send". -/
theorem PostEvents_some_failed_counterexample :
    (channelThenLogin.length = 2
      ∧ failedSends (scriptedService.PostEvents sampleMarshal "web" "abc" channelThenLogin [false]) = 1)
      ∧ (scriptedService.PostEvents sampleMarshal "web" "abc" channelThenLogin [false]).result
        = .ok ({ Success := false, Length := 2 },
            some (GoError.errorsNew "all messages failed to send"))
      ∧ (scriptedService.PostEvents sampleMarshal "web" "abc" channelThenLogin [false]).result
        ≠ .ok ({ Success := true, Length := 2 },
            some (GoError.errorsNew "some messages failed to send")) := by
  refine ⟨⟨by decide, by decide⟩, rfl, ?_⟩
  intro h
  have h2 : (scriptedService.PostEvents sampleMarshal "web" "abc" channelThenLogin [false]).result
      = .ok ({ Success := false, Length := 2 },
          some (GoError.errorsNew "all messages failed to send")) := rfl
  rw [h2] at h
  injection h with h
  exact absurd (congrArg (fun q => q.1.Success) h) (by decide)

/-- C2, amended: when exactly k sends of a batch of N events fail, with 0 < k < M where M is the
number of messages submitted to the producer, `PostEvents` returns `Success = true`,
`Length = N` and the error "some messages failed to send". -/
theorem PostEvents_some_failed {σ δ : Type}
    (jsonMarshal : EventRecord δ → Except GoError Bytes) (s : service σ)
    (source track : String) (events : List (Event δ)) (bus : σ)
    (hk : 0 < failedSends (s.PostEvents jsonMarshal source track events bus))
    (hlt : failedSends (s.PostEvents jsonMarshal source track events bus)
      < (s.PostEvents jsonMarshal source track events bus).calls.length) :
    (s.PostEvents jsonMarshal source track events bus).result
      = .ok ({ Success := true, Length := events.length },
          some (GoError.errorsNew "some messages failed to send")) := by
  cases hp : s.producer with
  | none =>
    have h := PostEvents_without_producer jsonMarshal s hp source track events bus
    simp [failedSends, h] at hk
  | some p =>
    have hne : events ≠ [] := by
      rintro rfl
      simp [failedSends, run_of_no_events] at hk
    obtain ⟨h1, h2⟩ := PostEvents_with_producer jsonMarshal s p hp source track events hne bus
    rw [h2]
    unfold failedSends at hk hlt
    rw [h1] at hk hlt
    have hsum := countP_isNone_add_isSome
      (sendTrace p (buildMessages jsonMarshal s.topic source track events) bus)
    unfold classify
    rw [if_neg (by omega), if_pos (by omega)]

/-- Witness for C2, amended: two events, the producer accepts the first and rejects the
second. -/
theorem PostEvents_some_failed_witness :
    (scriptedService.PostEvents sampleMarshal "web" "abc" loginClick [true, false]).result
      = .ok ({ Success := true, Length := (loginClick.length : Int) },
          some (GoError.errorsNew "some messages failed to send")) :=
  PostEvents_some_failed sampleMarshal scriptedService "web" "abc" loginClick [true, false]
    (by decide) (by decide)

/-- C3, as stated, fails: for the non-empty batch of one event that does not marshal, no send
is made, so all sends fail, yet `PostEvents` returns `Success = true` and a nil error. -/
theorem PostEvents_all_failed_counterexample :
    channelOnly ≠ []
      ∧ (scriptedService.PostEvents sampleMarshal "web" "abc" channelOnly []).calls.all
          (fun c => c.err.isSome) = true
      ∧ (scriptedService.PostEvents sampleMarshal "web" "abc" channelOnly []).result
        = .ok ({ Success := true, Length := 1 }, none) := by
  refine ⟨by decide, by decide, rfl⟩

/-- C3, amended: for a batch of N events of which at least one message is submitted to the
producer, when all sends fail `PostEvents` returns `Success = false`, `Length = N` and the
error "all messages failed to send". -/
theorem PostEvents_all_failed {σ δ : Type}
    (jsonMarshal : EventRecord δ → Except GoError Bytes) (s : service σ)
    (source track : String) (events : List (Event δ)) (bus : σ)
    (hsub : (s.PostEvents jsonMarshal source track events bus).calls ≠ [])
    (hall : ∀ c ∈ (s.PostEvents jsonMarshal source track events bus).calls, c.err ≠ none) :
    (s.PostEvents jsonMarshal source track events bus).result
      = .ok ({ Success := false, Length := events.length },
          some (GoError.errorsNew "all messages failed to send")) := by
  cases hp : s.producer with
  | none =>
    exact absurd (PostEvents_without_producer jsonMarshal s hp source track events bus) hsub
  | some p =>
    have hne : events ≠ [] := by
      rintro rfl
      exact hsub (by rw [run_of_no_events])
    obtain ⟨h1, h2⟩ := PostEvents_with_producer jsonMarshal s p hp source track events hne bus
    rw [h2]
    rw [h1] at hsub hall
    have hsum := countP_isNone_add_isSome
      (sendTrace p (buildMessages jsonMarshal s.topic source track events) bus)
    have hfail := (countP_isSome_eq_length_iff _).2 hall
    have hpos : 0 < (sendTrace p (buildMessages jsonMarshal s.topic source track events) bus).length :=
      List.length_pos.2 hsub
    unfold classify
    rw [if_neg (by omega), if_neg (by omega)]

/-- Witness for C3, amended: two events, the producer rejects both. -/
theorem PostEvents_all_failed_witness :
    (scriptedService.PostEvents sampleMarshal "web" "abc" loginClick [false, false]).result
      = .ok ({ Success := false, Length := (loginClick.length : Int) },
          some (GoError.errorsNew "all messages failed to send")) :=
  PostEvents_all_failed sampleMarshal scriptedService "web" "abc" loginClick [false, false]
    (by decide) (by decide)

/-- C4: on a service that holds a producer, for every non-empty batch in which every message
submitted to the producer is sent successfully, `PostEvents` returns `Success = true`, a nil
error and `Length = len(events)`. -/
theorem PostEvents_all_sent {σ δ : Type}
    (jsonMarshal : EventRecord δ → Except GoError Bytes) (s : service σ) (p : SyncProducer σ)
    (hp : s.producer = some p) (source track : String) (events : List (Event δ)) (bus : σ)
    (hne : events ≠ [])
    (hall : ∀ c ∈ (s.PostEvents jsonMarshal source track events bus).calls, c.err = none) :
    (s.PostEvents jsonMarshal source track events bus).result
      = .ok ({ Success := true, Length := events.length }, none) := by
  obtain ⟨h1, h2⟩ := PostEvents_with_producer jsonMarshal s p hp source track events hne bus
  rw [h2]
  rw [h1] at hall
  have hok := (countP_isNone_eq_length_iff _).2 hall
  unfold classify
  rw [if_pos hok]

/-- Witness for C4: the two events `login` and `click`, both accepted by the producer. -/
theorem PostEvents_all_sent_witness :
    (scriptedService.PostEvents sampleMarshal "web" "abc" loginClick [true, true]).result
      = .ok ({ Success := true, Length := (loginClick.length : Int) }, none) :=
  PostEvents_all_sent sampleMarshal scriptedService scriptedProducer rfl "web" "abc" loginClick
    [true, true] (by decide) (by decide)

/-- C5 fails on the code: on a service that holds no producer, `PostEvents` with a batch of
which at least one event marshals does not return a result/error pair. The first
`s.producer.SendMessage` is a method call on a nil interface value, so the run panics, after
zero `SendMessage` calls. -/
theorem PostEvents_nil_producer_panics {σ δ : Type}
    (jsonMarshal : EventRecord δ → Except GoError Bytes) (s : service σ)
    (hp : s.producer = none) (source track : String) (events : List (Event δ)) (bus : σ)
    (hser : ∃ evt ∈ events, ∃ data, jsonMarshal
      { Time := evt.Time, Typ := evt.Typ, Detail := evt.Detail, Source := source, Track := track }
        = .ok data) :
    (s.PostEvents jsonMarshal source track events bus).result = .error Panic.nilDereference
      ∧ (s.PostEvents jsonMarshal source track events bus).calls = [] := by
  refine ⟨?_, PostEvents_without_producer jsonMarshal s hp source track events bus⟩
  obtain ⟨evt, hevt, data, hdata⟩ := hser
  have hlen : ¬ ((events.length : Int) = 0) := by
    cases events with
    | nil => exact absurd hevt (List.not_mem_nil evt)
    | cons e es => simp; omega
  have hmsgs : buildMessages jsonMarshal s.topic source track events ≠ [] := by
    rw [buildMessages_eq_filterMap]
    exact filterMap_ne_nil_of_mem _ events evt { Topic := s.topic, Value := data } hevt
      (by simp [outgoingMessage, hdata])
  have h := (sendLoop_none (buildMessages jsonMarshal s.topic source track events)
    none 0 bus []
    [[.str "source", .str source, .str "track", .str track, .str "length",
      .int (events.length : Int)]]).2 hmsgs
  simp only [service.PostEvents, hp, if_neg hlen, h]

/-- Witness for C5: the service without a producer, called with the `login` and `click` events,
panics instead of returning `Success = false` with "all messages failed to send". -/
theorem PostEvents_nil_producer_panics_witness :
    (unwiredService.PostEvents sampleMarshal "web" "abc" loginClick []).result
        = .error Panic.nilDereference
      ∧ (unwiredService.PostEvents sampleMarshal "web" "abc" loginClick []).calls = [] :=
  PostEvents_nil_producer_panics sampleMarshal unwiredService rfl "web" "abc" loginClick []
    ⟨{ Time := "t1", Typ := "login", Detail := .object "" }, by decide, [2, 5, 0, 3, 3], rfl⟩

/-- C6: on a service that holds a producer, for every source, track and event list, whatever
marshals and whatever the producer answers, `PostEvents` returns a result whose `Length` is
`len(events)`. -/
theorem PostEvents_length {σ δ : Type}
    (jsonMarshal : EventRecord δ → Except GoError Bytes) (s : service σ) (p : SyncProducer σ)
    (hp : s.producer = some p) (source track : String) (events : List (Event δ)) (bus : σ) :
    ∃ r e, (s.PostEvents jsonMarshal source track events bus).result = .ok (r, e)
      ∧ r.Length = events.length := by
  by_cases hne : events = []
  · subst hne
    exact ⟨_, _, by rw [run_of_no_events], rfl⟩
  · obtain ⟨_, h2⟩ := PostEvents_with_producer jsonMarshal s p hp source track events hne bus
    exact ⟨_, _, h2, classify_length _ _ _⟩

/-- Witness for C6: a batch of two events, one dropped at marshalling and one rejected by the
producer, still reports `Length = 2`. -/
theorem PostEvents_length_witness :
    ∃ r e, (scriptedService.PostEvents sampleMarshal "web" "abc" channelThenLogin [false]).result
        = .ok (r, e)
      ∧ r.Length = (channelThenLogin.length : Int) :=
  PostEvents_length sampleMarshal scriptedService scriptedProducer rfl "web" "abc"
    channelThenLogin [false]

/-- C7: on a service that holds a producer, the messages of the `SendMessage` calls that the
producer receives are exactly the outgoing messages of the events that marshal, one call each,
in the order of the events, whatever the producer answers to each call. -/
theorem PostEvents_calls {σ δ : Type}
    (jsonMarshal : EventRecord δ → Except GoError Bytes) (s : service σ) (p : SyncProducer σ)
    (hp : s.producer = some p) (source track : String) (events : List (Event δ)) (bus : σ) :
    (s.PostEvents jsonMarshal source track events bus).calls.map (fun c => c.msg)
      = events.filterMap (outgoingMessage jsonMarshal s.topic source track) := by
  exact calls_with_producer jsonMarshal s p hp source track events bus

/-- Witness for C7: the first event does not marshal, the second is rejected and the third is
still sent, once each. -/
theorem PostEvents_calls_witness :
    (scriptedService.PostEvents sampleMarshal "web" "abc"
        (channelThenLogin ++ loginClick) [false, false, true]).calls.map (fun c => c.msg)
      = (channelThenLogin ++ loginClick).filterMap
          (outgoingMessage sampleMarshal scriptedService.topic "web" "abc") :=
  PostEvents_calls sampleMarshal scriptedService scriptedProducer rfl "web" "abc"
    (channelThenLogin ++ loginClick) [false, false, true]

/-- C8: the `SendMessage` calls of a run of `PostEvents` correspond, in order, to a
subsequence of the input events; each message is addressed to the topic of the service and
its value is the marshalled `EventRecord` whose `Source` and `Track` are the arguments of the
call and whose `Time`, `Type` and `Detail` are those of the corresponding event. -/
theorem PostEvents_messages {σ δ : Type}
    (jsonMarshal : EventRecord δ → Except GoError Bytes) (s : service σ)
    (source track : String) (events : List (Event δ)) (bus : σ) :
    ∃ kept : List (Event δ), kept.Sublist events
      ∧ List.Forall₂
          (fun c evt => c.msg.Topic = s.topic
            ∧ jsonMarshal
                { Time := evt.Time, Typ := evt.Typ, Detail := evt.Detail, Source := source,
                  Track := track }
              = .ok c.msg.Value)
          (s.PostEvents jsonMarshal source track events bus).calls kept := by
  cases hp : s.producer with
  | none =>
    refine ⟨[], List.nil_sublist events, ?_⟩
    rw [PostEvents_without_producer jsonMarshal s hp source track events bus]
    exact List.Forall₂.nil
  | some p =>
    refine ⟨events.filter
      (fun evt => (outgoingMessage jsonMarshal s.topic source track evt).isSome),
      List.filter_sublist events, ?_⟩
    have hcalls := calls_with_producer jsonMarshal s p hp source track events bus
    have hrel := forall₂_filterMap_filter (outgoingMessage jsonMarshal s.topic source track) events
    rw [← hcalls, List.forall₂_map_left_iff] at hrel
    refine hrel.imp ?_
    intro c evt h
    unfold outgoingMessage at h
    split at h
    · next data hdata =>
      have hm : c.msg = { Topic := s.topic, Value := data } := (Option.some.inj h).symm
      rw [hm]
      exact ⟨rfl, hdata⟩
    · exact absurd h (by simp)

/-- C9: `Health` returns exactly two entries, the service itself ("events") and then the bus
("kafka:events-stream"); the first has status "OK", the second has status "ERROR" if and only
if the producer of the service is nil, and "OK" otherwise. -/
theorem Health_entries {σ : Type} (s : service σ) (now1 now2 : String) :
    ∃ app kafka : events.Health, s.Health now1 now2 = [app, kafka]
      ∧ app.Service = "events" ∧ app.Status = "OK"
      ∧ kafka.Service = "kafka:events-stream"
      ∧ (kafka.Status = "ERROR" ↔ s.producer = none)
      ∧ (kafka.Status = "OK" ↔ s.producer ≠ none) := by
  cases hp : s.producer with
  | none => exact ⟨_, _, rfl, rfl, rfl, rfl, by simp [hp], by simp [hp]⟩
  | some p => exact ⟨_, _, rfl, rfl, rfl, rfl, by simp [hp], by simp [hp]⟩

/-- C10, as stated, fails: two calls of `Health` on the same service, made at different
readings of the clock, return different results. -/
theorem Health_repeat_counterexample :
    scriptedService.Health "2020-05-01 10:00:00.000000001" "2020-05-01 10:00:00.000000002"
      ≠ scriptedService.Health "2020-05-01 10:00:07.000000001" "2020-05-01 10:00:07.000000002" := by
  decide

/-- C10, amended: two calls of `Health` on a service whose state has not changed return
entries with the same `Service` and `Status` fields; the `Time` fields are the clock readings
of each call, so the two results are equal exactly when the clock readings are. -/
theorem Health_repeat {σ : Type} (s : service σ) (now1 now2 later1 later2 : String) :
    (s.Health now1 now2).map (fun h => (h.Service, h.Status))
        = (s.Health later1 later2).map (fun h => (h.Service, h.Status))
      ∧ (s.Health now1 now2 = s.Health later1 later2 ↔ now1 = later1 ∧ now2 = later2) := by
  constructor
  · rfl
  · simp [service.Health]

/-- C11: on a service that holds a producer, `PostEvents` returns, and the error it returns is
nil or one of the three batch-level errors "no events received", "some messages failed to
send" and "all messages failed to send"; it is never an error answered by `SendMessage` nor an
error of `json.Marshal`. -/
theorem PostEvents_error_kinds {σ δ : Type}
    (jsonMarshal : EventRecord δ → Except GoError Bytes) (s : service σ) (p : SyncProducer σ)
    (hp : s.producer = some p) (source track : String) (events : List (Event δ)) (bus : σ) :
    ∃ r e, (s.PostEvents jsonMarshal source track events bus).result = .ok (r, e)
      ∧ (e = none ∨ e = some (GoError.errorsNew "no events received")
          ∨ e = some (GoError.errorsNew "some messages failed to send")
          ∨ e = some (GoError.errorsNew "all messages failed to send"))
      ∧ (∀ text, e ≠ some (GoError.sendError text))
      ∧ (∀ text, e ≠ some (GoError.marshalError text)) := by
  have hkinds : ∀ e : Option GoError,
      (e = none ∨ e = some (GoError.errorsNew "no events received")
        ∨ e = some (GoError.errorsNew "some messages failed to send")
        ∨ e = some (GoError.errorsNew "all messages failed to send")) →
      (∀ text, e ≠ some (GoError.sendError text))
        ∧ (∀ text, e ≠ some (GoError.marshalError text)) := by
    intro e he
    rcases he with h | h | h | h <;> subst h <;> constructor <;> intro text habs <;> cases habs
  by_cases hne : events = []
  · subst hne
    have hres : (s.PostEvents jsonMarshal source track [] bus).result
        = .ok ({ Success := false, Length := 0 },
            some (GoError.errorsNew "no events received")) := by
      rw [run_of_no_events]
    exact ⟨_, _, hres, Or.inr (Or.inl rfl), hkinds _ (Or.inr (Or.inl rfl))⟩
  · obtain ⟨_, h2⟩ := PostEvents_with_producer jsonMarshal s p hp source track events hne bus
    have hcls := classify_error (events.length : Int)
      ((sendTrace p (buildMessages jsonMarshal s.topic source track events) bus).countP
        (fun c => c.err.isNone))
      (sendTrace p (buildMessages jsonMarshal s.topic source track events) bus).length
    have hfour : ∀ e : Option GoError,
        (e = none ∨ e = some (GoError.errorsNew "some messages failed to send")
          ∨ e = some (GoError.errorsNew "all messages failed to send")) →
        (e = none ∨ e = some (GoError.errorsNew "no events received")
          ∨ e = some (GoError.errorsNew "some messages failed to send")
          ∨ e = some (GoError.errorsNew "all messages failed to send")) := by
      intro e he
      rcases he with h | h | h
      · exact Or.inl h
      · exact Or.inr (Or.inr (Or.inl h))
      · exact Or.inr (Or.inr (Or.inr h))
    exact ⟨_, _, h2, hfour _ hcls, hkinds _ (hfour _ hcls)⟩

/-- Witness for C11: the producer accepts the first message and answers an error to the last
one; the error returned is a batch-level one, not the producer's. -/
theorem PostEvents_error_kinds_witness :
    ∃ r e, (scriptedService.PostEvents sampleMarshal "web" "abc" loginClick [true, false]).result
        = .ok (r, e)
      ∧ (e = none ∨ e = some (GoError.errorsNew "no events received")
          ∨ e = some (GoError.errorsNew "some messages failed to send")
          ∨ e = some (GoError.errorsNew "all messages failed to send"))
      ∧ (∀ text, e ≠ some (GoError.sendError text))
      ∧ (∀ text, e ≠ some (GoError.marshalError text)) :=
  PostEvents_error_kinds sampleMarshal scriptedService scriptedProducer rfl "web" "abc"
    loginClick [true, false]

/-- C12, as stated, fails: on a service whose context is already cancelled when `PostEvents`
is called, all messages of the batch remain after the cancellation, yet both are submitted to
the producer. -/
theorem PostEvents_cancelled_counterexample :
    cancelledService.ctx.done = true
      ∧ (cancelledService.PostEvents sampleMarshal "web" "abc" loginClick [true, true]).calls
        = [{ msg := { Topic := "mushop-events", Value := [2, 5, 0, 3, 3] }, err := none },
           { msg := { Topic := "mushop-events", Value := [2, 5, 0, 3, 3] }, err := none }] := by
  exact ⟨rfl, by decide⟩

/-- C12, amended: `PostEvents` never consults the context of the service. Whether or not the
context is cancelled, the run is the same as under any other context, and on a service that
holds a producer every message that marshals is submitted, one `SendMessage` call each in the
order of the events; these sends are the only calls made, so nothing is rolled back. -/
theorem PostEvents_ignores_context {σ δ : Type}
    (jsonMarshal : EventRecord δ → Except GoError Bytes) (s : service σ) (p : SyncProducer σ)
    (hp : s.producer = some p) (source track : String) (events : List (Event δ)) (bus : σ) :
    (∀ ctx : Context,
        (NewEventsService ctx s.producer s.topic).PostEvents jsonMarshal source track events bus
          = s.PostEvents jsonMarshal source track events bus)
      ∧ (s.PostEvents jsonMarshal source track events bus).calls.map (fun c => c.msg)
        = events.filterMap (outgoingMessage jsonMarshal s.topic source track) := by
  exact ⟨fun _ => rfl, calls_with_producer jsonMarshal s p hp source track events bus⟩

/-- Witness for C12, amended: the service with a cancelled context sends both messages of the
batch, and runs as the service with a live context does. -/
theorem PostEvents_ignores_context_witness :
    (∀ ctx : Context,
        (NewEventsService ctx cancelledService.producer cancelledService.topic).PostEvents
            sampleMarshal "web" "abc" loginClick [true, false]
          = cancelledService.PostEvents sampleMarshal "web" "abc" loginClick [true, false])
      ∧ (cancelledService.PostEvents sampleMarshal "web" "abc" loginClick
            [true, false]).calls.map (fun c => c.msg)
        = loginClick.filterMap (outgoingMessage sampleMarshal cancelledService.topic "web" "abc") :=
  PostEvents_ignores_context sampleMarshal cancelledService scriptedProducer rfl "web" "abc"
    loginClick [true, false]

/-- C13: for every non-empty batch in which no event marshals, `PostEvents` makes no
`SendMessage` call and returns `Success = true`, a nil error and `Length = len(events)`, on
every service, with or without a producer. -/
theorem PostEvents_nothing_marshals {σ δ : Type}
    (jsonMarshal : EventRecord δ → Except GoError Bytes) (s : service σ)
    (source track : String) (events : List (Event δ)) (bus : σ)
    (hne : events ≠ [])
    (hfail : ∀ evt ∈ events, ∃ e, jsonMarshal
      { Time := evt.Time, Typ := evt.Typ, Detail := evt.Detail, Source := source, Track := track }
        = .error e) :
    (s.PostEvents jsonMarshal source track events bus).calls = []
      ∧ (s.PostEvents jsonMarshal source track events bus).result
        = .ok ({ Success := true, Length := events.length }, none) :=
  run_of_no_messages jsonMarshal s source track events bus hne
    (buildMessages_eq_nil jsonMarshal s.topic source track events hfail)

/-- Witness for C13: two events that both carry a channel, on the scripted service. -/
theorem PostEvents_nothing_marshals_witness :
    (scriptedService.PostEvents sampleMarshal "web" "abc" channelTwice [false]).calls = []
      ∧ (scriptedService.PostEvents sampleMarshal "web" "abc" channelTwice [false]).result
        = .ok ({ Success := true, Length := (channelTwice.length : Int) }, none) :=
  PostEvents_nothing_marshals sampleMarshal scriptedService "web" "abc" channelTwice [false]
    (by decide)
    (by
      intro evt hevt
      simp only [channelTwice, List.mem_cons, List.mem_singleton, List.not_mem_nil, or_false]
        at hevt
      rcases hevt with h | h <;> subst h <;> exact ⟨_, rfl⟩)

end events
